import Mathlib

/-!
# Verification of the SmokeLess AI analytical core

Shallow embedding of the analytical/algorithmic core of the backend:
the analytics aggregator (`analytics.service.js`), the prediction engine
(`prediction.service.js`), the streak tracker (`streak.model.js`) and the
gamification layer (`gamification.service.js`, `achievement.model.js`).
Timestamps are modelled as natural numbers of milliseconds since the epoch;
calendar days, when only the date matters, as integer day numbers.
JavaScript floating-point arithmetic is modelled over `ℚ` where the source
computes with exact ratios and over `ℝ` where it uses `Math.exp`/`Math.pow`
with fractional exponents.
-/

namespace SmokeLess

/-- Context labels of an intake event (`intake.model.js` enum
`stress|bored|habit|social|other`). -/
inductive Context where
  | stress
  | bored
  | habit
  | social
  | other
deriving DecidableEq, Repr

instance : Fintype Context :=
  ⟨⟨{Context.stress, Context.bored, Context.habit, Context.social, Context.other}, by decide⟩,
   by intro x; cases x <;> decide⟩

/-- An intake event: `puffs` count, timestamp in milliseconds (`loggedAt`),
and context label. Only the fields the analytical core reads are modelled. -/
structure Intake where
  puffs : ℕ
  loggedAt : ℕ
  context : Context
deriving DecidableEq, Repr

def msPerHour : ℕ := 3600000

def msPerDay : ℕ := 86400000

/-- Hour of day of a timestamp (`dayjs(t).hour()`), modelled in a fixed
reference timezone. -/
def hourOfMs (t : ℕ) : Fin 24 :=
  ⟨t / msPerHour % 24, Nat.mod_lt _ (by norm_num)⟩

/-- Day of week of a timestamp (`dayjs(t).day()`, 0 = Sunday); the epoch
fell on a Thursday, hence the offset 4. -/
def dayOfMs (t : ℕ) : Fin 7 :=
  ⟨(t / msPerDay + 4) % 7, Nat.mod_lt _ (by norm_num)⟩

/-- Calendar-day number of a timestamp (date truncation). -/
def dayNumberOfMs (t : ℕ) : ℕ := t / msPerDay

/-! ## AnalyticsAggregator (`analytics.service.js`) -/

/-- `calculateTrend`: ordinary-least-squares slope of `values` against
indices `0, …, n-1`; `0` when fewer than two points or the denominator
vanishes. -/
def calculateTrend (values : List ℚ) : ℚ :=
  let n := values.length
  if n < 2 then 0
  else
    let xMean : ℚ := (n - 1) / 2
    let yMean : ℚ := values.sum / n
    let numerator :=
      ((List.range n).zip values).foldl
        (fun acc p => acc + ((p.1 : ℚ) - xMean) * (p.2 - yMean)) 0
    let denominator :=
      (List.range n).foldl (fun acc i => acc + ((i : ℚ) - xMean) ^ 2) 0
    if denominator = 0 then 0 else numerator / denominator

/-- The `trend.direction` field of `getWeeklyStats`:
`trend > 0 ? 'increasing' : trend < 0 ? 'decreasing' : 'stable'`. -/
def trendDirection (trend : ℚ) : String :=
  if trend > 0 then "increasing" else if trend < 0 then "decreasing" else "stable"

/-- `getTrendMessage`: human-readable message keyed on slope thresholds. -/
def getTrendMessage (slope : ℚ) : String :=
  if slope < -2 then "Great progress! Your usage is decreasing significantly."
  else if slope < -1/2 then "Good job! Your usage is trending down."
  else if slope < 1/2 then "Your usage is stable this week."
  else if slope < 2 then "Your usage is slightly increasing. Stay mindful!"
  else "Your usage is increasing. Consider reviewing your triggers."

/-- The seven `totalPuffs` entries of `getWeeklyStats`'s `dailyData`: for
each of the 7 days starting at `weekStartDay`, the sum of puffs of the
events logged on that calendar day. -/
def dailyTotals (weekStartDay : ℕ) (intakes : List Intake) : List ℚ :=
  (List.range 7).map fun i =>
    (((intakes.filter fun e => dayNumberOfMs e.loggedAt = weekStartDay + i).map
      fun e => (e.puffs : ℚ)).sum)

/-- `getWeeklyStats`'s trend slope for a week of events. -/
def weeklyTrend (weekStartDay : ℕ) (intakes : List Intake) : ℚ :=
  calculateTrend (dailyTotals weekStartDay intakes)

/-- `getWeeklyStats`'s `trend.direction` for a week of events. -/
def getWeeklyDirection (weekStartDay : ℕ) (intakes : List Intake) : String :=
  trendDirection (weeklyTrend weekStartDay intakes)

/-- One step of `getDailyStats`'s hourly accumulation:
`hourlyData[hour] += intake.puffs`. -/
def addToHourly (acc : Fin 24 → ℕ) (e : Intake) : Fin 24 → ℕ :=
  Function.update acc (hourOfMs e.loggedAt) (acc (hourOfMs e.loggedAt) + e.puffs)

/-- `getDailyStats`'s `hourlyData`: 24 per-hour puff buckets, starting from
`Array(24).fill(0)`. -/
def hourlyData (intakes : List Intake) : Fin 24 → ℕ :=
  intakes.foldl addToHourly (fun _ => 0)

/-- `getDailyStats`'s `totalPuffs`: `intakes.reduce((sum, i) => sum + i.puffs, 0)`. -/
def totalPuffs (intakes : List Intake) : ℕ :=
  intakes.foldl (fun sum e => sum + e.puffs) 0

/-! ## StreakTracker (`streak.model.js`) -/

/-- Per-user streak / gamification state (the fields of the `Streak` schema
that the analytical core reads or writes). `lastActiveDate` is a
date-truncated calendar-day number, `none` before the first update. -/
structure StreakState where
  currentStreak : ℕ
  longestStreak : ℕ
  lastActiveDate : Option ℤ
  totalXP : ℕ
  level : ℕ
  totalLogsCount : ℕ
  totalMoneySaved : ℚ
deriving DecidableEq, Repr

/-- `calculateLevel`: `Math.floor(Math.sqrt(totalXP / 100)) + 1`. -/
def calculateLevel (totalXP : ℕ) : ℕ :=
  Nat.sqrt (totalXP / 100) + 1

/-- `xpForNextLevel`: `nextLevel = level + 1; (nextLevel - 1)^2 * 100`. -/
def xpForNextLevel (s : StreakState) : ℕ :=
  (s.level + 1 - 1) ^ 2 * 100

/-- `addXP`: accumulate XP and recalculate the level. -/
def addXP (amount : ℕ) (s : StreakState) : StreakState :=
  let xp := s.totalXP + amount
  { s with totalXP := xp, level := calculateLevel xp }

/-- `updateStreak(didLog)`: the streak transition. `today` is the
date-truncated current day; `diffDays` is the whole-day difference between
`today` and the date-truncated `lastActiveDate`. After the transition the
longest streak is raised to the current streak when exceeded and
`lastActiveDate` is set to `today`. -/
def updateStreak (today : ℤ) (didLog : Bool) (s : StreakState) : StreakState :=
  let current :=
    match s.lastActiveDate with
    | none => if didLog then 1 else 0
    | some lastActive =>
      let diffDays := today - lastActive
      if diffDays = 0 then s.currentStreak
      else if diffDays = 1 ∧ didLog = true then s.currentStreak + 1
      else if didLog then 1 else 0
  let longest := if current > s.longestStreak then current else s.longestStreak
  { s with currentStreak := current, longestStreak := longest,
           lastActiveDate := some today }

/-! ## PredictionEngine (`prediction.service.js`) -/

/-- Factor 1 accumulation: `hourlyWeights[hour] += intake.puffs`. -/
def hourlyWeights (intakes : List Intake) : Fin 24 → ℕ :=
  intakes.foldl addToHourly (fun _ => 0)

/-- `Math.max(...hourlyWeights, 1)`. -/
def maxHourWeight (intakes : List Intake) : ℕ :=
  max (Finset.univ.sup (hourlyWeights intakes)) 1

/-- Factor 1: normalized hourly weight at the current hour (weight 0.40). -/
def hourFactor (now : ℕ) (intakes : List Intake) : ℚ :=
  (hourlyWeights intakes (hourOfMs now) : ℚ) / (maxHourWeight intakes : ℚ)

/-- Factor 2 accumulation: `dayWeights[day] += intake.puffs`. -/
def addToDaily (acc : Fin 7 → ℕ) (e : Intake) : Fin 7 → ℕ :=
  Function.update acc (dayOfMs e.loggedAt) (acc (dayOfMs e.loggedAt) + e.puffs)

def dayWeights (intakes : List Intake) : Fin 7 → ℕ :=
  intakes.foldl addToDaily (fun _ => 0)

/-- `Math.max(...dayWeights, 1)`. -/
def maxDayWeight (intakes : List Intake) : ℕ :=
  max (Finset.univ.sup (dayWeights intakes)) 1

/-- Factor 2: normalized day-of-week weight at the current day (weight 0.15). -/
def dayFactor (now : ℕ) (intakes : List Intake) : ℚ :=
  (dayWeights intakes (dayOfMs now) : ℚ) / (maxDayWeight intakes : ℚ)

/-- The qualifying inter-event gaps, in hours: for each consecutive pair of
the time-sorted events, the gap in hours when it is `< 24` (overnight gaps
are ignored). -/
def gapsOf (intakes : List Intake) : List ℚ :=
  (intakes.zip intakes.tail).filterMap fun p =>
    let gap : ℚ := ((p.2.loggedAt : ℚ) - (p.1.loggedAt : ℚ)) / (msPerHour : ℚ)
    if gap < 24 then some gap else none

/-- `avgGap`: mean qualifying gap, defaulting to 4 hours when no gap
qualifies. -/
def avgGap (intakes : List Intake) : ℚ :=
  if 0 < (gapsOf intakes).length then
    (gapsOf intakes).sum / ((gapsOf intakes).length : ℚ)
  else 4

/-- `hoursSinceLastIntake`: hours from the last (time-sorted) event to now. -/
def hoursSinceLastIntake (now : ℕ) (intakes : List Intake) : ℚ :=
  ((now : ℚ) - ((intakes.getLast?.map fun e => (e.loggedAt : ℚ)).getD 0)) /
    (msPerHour : ℚ)

/-- Factor 3: `min(1, (hoursSinceLastIntake / avgGap)^1.5)` (weight 0.25). -/
noncomputable def timeFactor (now : ℕ) (intakes : List Intake) : ℝ :=
  min 1 (((hoursSinceLastIntake now intakes / avgGap intakes : ℚ) : ℝ) ^ (1.5 : ℝ))

/-- Events carrying context `c`. -/
def contextCount (intakes : List Intake) (c : Context) : ℕ :=
  (intakes.filter fun e => e.context = c).length

/-- `totalContexts`: sum of the per-context counts. -/
def totalContexts (intakes : List Intake) : ℕ :=
  ∑ c : Context, contextCount intakes c

/-- Shannon entropy of the context distribution; only contexts that occur
contribute a `-(p * log2 p)` term. -/
noncomputable def contextEntropy (intakes : List Intake) : ℝ :=
  ∑ c : Context,
    if 0 < contextCount intakes c then
      -(((contextCount intakes c : ℝ) / (totalContexts intakes : ℝ)) *
        Real.logb 2 ((contextCount intakes c : ℝ) / (totalContexts intakes : ℝ)))
    else 0

/-- Factor 4: `1 - entropy / log2(5)` (weight 0.10). -/
noncomputable def contextFactor (intakes : List Intake) : ℝ :=
  1 - contextEntropy intakes / Real.logb 2 5

/-- Total puffs in the most recent 3 days (`isAfter(now - 3 days)`). -/
def last3DaysPuffs (now : ℕ) (intakes : List Intake) : ℕ :=
  totalPuffs (intakes.filter fun e => (now : ℤ) - 3 * (msPerDay : ℤ) < (e.loggedAt : ℤ))

/-- Total puffs in the prior 3-day window
(`isAfter(now - 6 days) && isBefore(now - 3 days)`). -/
def prev3DaysPuffs (now : ℕ) (intakes : List Intake) : ℕ :=
  totalPuffs (intakes.filter fun e =>
    (now : ℤ) - 6 * (msPerDay : ℤ) < (e.loggedAt : ℤ) ∧
    (e.loggedAt : ℤ) < (now : ℤ) - 3 * (msPerDay : ℤ))

/-- Factor 5: clamped ratio of recent to prior 3-day puffs, neutral `0.5`
when the prior window has no puffs (weight 0.10). -/
def trendFactor (now : ℕ) (intakes : List Intake) : ℚ :=
  if 0 < prev3DaysPuffs now intakes then
    min 1 (max 0 ((last3DaysPuffs now intakes : ℚ) / (prev3DaysPuffs now intakes : ℚ) - 1/2))
  else 1/2

/-- `baseProbability`: the fixed weighted sum of the five factors. -/
noncomputable def baseProbability (now : ℕ) (intakes : List Intake) : ℝ :=
  ((hourFactor now intakes : ℝ) * 0.40) + ((dayFactor now intakes : ℝ) * 0.15) +
    (timeFactor now intakes * 0.25) + (contextFactor intakes * 0.10) +
    ((trendFactor now intakes : ℝ) * 0.10)

/-- `smoothedProbability`: logistic squashing
`1 / (1 + exp(-6 * (base - 0.5)))`. -/
noncomputable def smoothedProbability (now : ℕ) (intakes : List Intake) : ℝ :=
  1 / (1 + Real.exp (-6 * (baseProbability now intakes - 0.5)))

/-- `probability`: the squashed probability clamped to `[0.05, 0.95]`
(`Math.min(0.95, Math.max(0.05, smoothedProbability))`). -/
noncomputable def clampedProbability (now : ℕ) (intakes : List Intake) : ℝ :=
  min 0.95 (max 0.05 (smoothedProbability now intakes))

/-- Confidence tiers of a prediction. -/
inductive Confidence where
  | low
  | medium
  | high
deriving DecidableEq, Repr

/-- Confidence classification: starts `medium`; `high` when
`intakes.length > 50 && gaps.length > 20`; else `low` when
`intakes.length < 15`. -/
def confidenceOf (intakes : List Intake) : Confidence :=
  if 50 < intakes.length ∧ 20 < (gapsOf intakes).length then Confidence.high
  else if intakes.length < 15 then Confidence.low
  else Confidence.medium

/-- The five factor scores reported in the result's `factors` object (raw
values; the API rounds each to an integer percentage). -/
structure Factors where
  hourOfDay : ℝ
  dayOfWeek : ℝ
  timeSinceLastIntake : ℝ
  patternPredictability : ℝ
  recentTrend : ℝ

/-- The fields of `predictCraving`'s result that the specification
constrains: `probability` is the rounded integer percentage the API
returns, `rawProbability` the clamped probability it is derived from,
`factors` the factor breakdown (`none` on the not-enough-data path). -/
structure PredictionOutput where
  probability : Option ℤ
  rawProbability : Option ℝ
  confidence : Confidence
  factors : Option Factors

/-- `predictCraving`: below 5 events in the window, the sentinel
not-enough-data result (null probability, low confidence, no factor
breakdown); otherwise the five-factor weighted, squashed, clamped
probability with its confidence classification. -/
noncomputable def predictCraving (now : ℕ) (intakes : List Intake) : PredictionOutput :=
  if intakes.length < 5 then
    { probability := none, rawProbability := none,
      confidence := Confidence.low, factors := none }
  else
    { probability := some (round (clampedProbability now intakes * 100)),
      rawProbability := some (clampedProbability now intakes),
      confidence := confidenceOf intakes,
      factors := some
        { hourOfDay := (hourFactor now intakes : ℝ),
          dayOfWeek := (dayFactor now intakes : ℝ),
          timeSinceLastIntake := timeFactor now intakes,
          patternPredictability := contextFactor intakes,
          recentTrend := (trendFactor now intakes : ℝ) } }

/-! ## AchievementEngine (`achievement.model.js`, `gamification.service.js`) -/

/-- An achievement catalog entry: immutable id and XP reward (the display
metadata is not read by the core logic). -/
structure Achievement where
  id : String
  xp : ℕ
deriving DecidableEq, Repr

def FIRST_DAY : Achievement := ⟨"first_day", 50⟩

def WEEK_WARRIOR : Achievement := ⟨"week_warrior", 200⟩

def MONTH_MASTER : Achievement := ⟨"month_master", 1000⟩

def FIRST_REDUCTION : Achievement := ⟨"first_reduction", 100⟩

def HALF_WAY : Achievement := ⟨"half_way", 500⟩

def SMOKE_FREE_DAY : Achievement := ⟨"smoke_free_day", 300⟩

def LOGGER_10 : Achievement := ⟨"logger_10", 50⟩

def LOGGER_50 : Achievement := ⟨"logger_50", 150⟩

def LOGGER_100 : Achievement := ⟨"logger_100", 300⟩

def INSIGHT_SEEKER : Achievement := ⟨"insight_seeker", 75⟩

def COACH_FOLLOWER : Achievement := ⟨"coach_follower", 100⟩

def MORNING_DELAY : Achievement := ⟨"morning_delay", 150⟩

def SAVER_10 : Achievement := ⟨"saver_10", 100⟩

def SAVER_50 : Achievement := ⟨"saver_50", 250⟩

def SAVER_100 : Achievement := ⟨"saver_100", 500⟩

/-- The fixed process-wide achievement catalog (`ACHIEVEMENTS`), in
definition order. -/
def ACHIEVEMENTS : List Achievement :=
  [FIRST_DAY, WEEK_WARRIOR, MONTH_MASTER, FIRST_REDUCTION, HALF_WAY,
   SMOKE_FREE_DAY, LOGGER_10, LOGGER_50, LOGGER_100, INSIGHT_SEEKER,
   COACH_FOLLOWER, MORNING_DELAY, SAVER_10, SAVER_50, SAVER_100]

/-- The XP reward looked up in the catalog by id
(`Object.values(ACHIEVEMENTS).find(a => a.id === achievementId)`), `0`
when the id is absent. -/
def xpOf (achievementId : String) : ℕ :=
  ((ACHIEVEMENTS.find? fun a => a.id = achievementId).map Achievement.xp).getD 0

/-- Per-user gamification state: the set of unlocked achievement ids (the
`UserAchievement` records of this user, unique per `(userId, achievementId)`
pair) and the user's streak record. -/
structure GState where
  unlocked : List String
  streak : StreakState
deriving DecidableEq, Repr

/-- `unlockAchievement`: a duplicate unlock attempt is a no-op returning
`false`; otherwise the unlock record is created, the achievement's XP (when
the id is in the catalog) is awarded via `addXP`, and `true` is returned. -/
def unlockAchievement (achievementId : String) (st : GState) : Bool × GState :=
  if achievementId ∈ st.unlocked then (false, st)
  else
    let st' : GState := { st with unlocked := achievementId :: st.unlocked }
    match ACHIEVEMENTS.find? fun a => a.id = achievementId with
    | some a => (true, { st' with streak := addXP a.xp st'.streak })
    | none => (true, st')

/-- One conditional unlock of `checkAchievements`: an unlock predicate over
the streak record together with the achievement it unlocks. -/
structure Check where
  pred : StreakState → Bool
  ach : Achievement

/-- The nine conditional unlocks of `checkAchievements`, in source order:
streak thresholds, then logging-count thresholds, then money-saved
thresholds. -/
def CHECKS : List Check :=
  [⟨fun s => 1 ≤ s.currentStreak, FIRST_DAY⟩,
   ⟨fun s => 7 ≤ s.currentStreak, WEEK_WARRIOR⟩,
   ⟨fun s => 30 ≤ s.currentStreak, MONTH_MASTER⟩,
   ⟨fun s => 10 ≤ s.totalLogsCount, LOGGER_10⟩,
   ⟨fun s => 50 ≤ s.totalLogsCount, LOGGER_50⟩,
   ⟨fun s => 100 ≤ s.totalLogsCount, LOGGER_100⟩,
   ⟨fun s => 10 ≤ s.totalMoneySaved, SAVER_10⟩,
   ⟨fun s => 50 ≤ s.totalMoneySaved, SAVER_50⟩,
   ⟨fun s => 100 ≤ s.totalMoneySaved, SAVER_100⟩]

/-- Run a list of conditional unlocks in order, accumulating the newly
unlocked achievements. -/
def runChecks : List Check → List Achievement → GState → List Achievement × GState
  | [], acc, st => (acc, st)
  | c :: rest, acc, st =>
    if c.pred st.streak then
      runChecks rest
        (if (unlockAchievement c.ach.id st).1 then acc ++ [c.ach] else acc)
        (unlockAchievement c.ach.id st).2
    else runChecks rest acc st

/-- A predicate over streak state that only reads the fields
`unlockAchievement` never writes (used to reason about re-running the
checks). -/
def PredStable (p : StreakState → Bool) : Prop :=
  ∀ s1 s2 : StreakState, s1.currentStreak = s2.currentStreak →
    s1.totalLogsCount = s2.totalLogsCount →
    s1.totalMoneySaved = s2.totalMoneySaved → p s1 = p s2

/-- `checkAchievements`: evaluate every cataloged unlock predicate against
the streak record and attempt the corresponding unlocks, returning the list
of newly unlocked achievements with the updated state. -/
def checkAchievements (st : GState) : List Achievement × GState :=
  runChecks CHECKS [] st

/-! ## Module wiring of `gamification.service.js` -/

/-- A JavaScript runtime error: referencing an identifier that is not in
scope raises a `ReferenceError` naming it. -/
inductive JsError where
  | referenceError (name : String)
deriving DecidableEq, Repr

/-- Resolve an identifier against a scope of bound names. -/
def lookupIdent (scope : List (String × ℤ)) (name : String) : Except JsError ℤ :=
  match scope.find? fun b => b.1 = name with
  | some b => Except.ok b.2
  | none => Except.error (JsError.referenceError name)

/-- The `Streak` schema defaults: zero streaks and counters, level 1,
no last-active date. -/
def defaultStreak : StreakState :=
  { currentStreak := 0, longestStreak := 0, lastActiveDate := none,
    totalXP := 0, level := 1, totalLogsCount := 0, totalMoneySaved := 0 }

/-- `getOrCreateStreak(userId)`: its body's query object evaluates the free
identifier `odId`, while only the parameter `userId` is in scope, so
evaluation raises a `ReferenceError` before any streak record is touched. -/
def getOrCreateStreak (userId : ℤ) : Except JsError StreakState :=
  match lookupIdent [("userId", userId)] "odId" with
  | Except.error e => Except.error e
  | Except.ok _ => Except.ok defaultStreak

/-- The intra-module call graph of `gamification.service.js`: for each
function, the module-local functions its body calls. -/
def gamificationCallees : String → List String
  | "updateStreakOnLog" => ["getOrCreateStreakFixed", "checkAchievements"]
  | "checkAchievements" => ["unlockAchievement"]
  | "getUserStats" => ["getOrCreateStreakFixed"]
  | "setBaseline" => ["getOrCreateStreakFixed"]
  | "getReductionProgress" => ["getOrCreateStreakFixed"]
  | _ => []

/-- The functions listed in `module.exports` of `gamification.service.js`. -/
def gamificationExports : List String :=
  ["updateStreakOnLog", "getUserStats", "getLeaderboard", "setBaseline",
   "getReductionProgress", "checkAchievements", "unlockAchievement"]

/-- The module-local functions reachable from `f` in at most `fuel` call
steps. -/
def reachableFrom (fuel : ℕ) (f : String) : List String :=
  match fuel with
  | 0 => []
  | fuel + 1 =>
    (gamificationCallees f).foldl
      (fun acc g => acc ++ [g] ++ reachableFrom fuel g) []

/-! ## Sample inputs used by concrete instantiations -/

/-- Five events across the morning, one hour apart. -/
def sampleFive : List Intake :=
  [⟨3, 0, Context.stress⟩, ⟨2, 3600000, Context.habit⟩,
   ⟨4, 7200000, Context.stress⟩, ⟨1, 10800000, Context.bored⟩,
   ⟨2, 14400000, Context.stress⟩]

/-- `k` one-puff events starting at `start`, one hour apart. -/
def hourlyFrom (start k : ℕ) : List Intake :=
  (List.range k).map fun i => ⟨1, start + i * msPerHour, Context.stress⟩

/-- Exactly fifty events, one hour apart (so every one of the 49
consecutive gaps is a qualifying 1-hour gap). -/
def fiftyHourly : List Intake := hourlyFrom 0 50

/-! # Theorems -/

/-- Projections of `updateStreak`: the updated record's fields. -/
theorem updateStreak_currentStreak (today : ℤ) (didLog : Bool) (s : StreakState) :
    (updateStreak today didLog s).currentStreak =
      match s.lastActiveDate with
      | none => if didLog then 1 else 0
      | some lastActive =>
        if today - lastActive = 0 then s.currentStreak
        else if today - lastActive = 1 ∧ didLog = true then s.currentStreak + 1
        else if didLog then 1 else 0 := by
  obtain ⟨cs, ls, la, xp, lv, tl, tm⟩ := s
  cases la <;> rfl

theorem updateStreak_longestStreak (today : ℤ) (didLog : Bool) (s : StreakState) :
    (updateStreak today didLog s).longestStreak =
      max s.longestStreak (updateStreak today didLog s).currentStreak := by
  obtain ⟨cs, ls, la, xp, lv, tl, tm⟩ := s
  cases la
  all_goals
    simp only [updateStreak, gt_iff_lt]
    split_ifs <;> omega

theorem updateStreak_lastActiveDate (today : ℤ) (didLog : Bool) (s : StreakState) :
    (updateStreak today didLog s).lastActiveDate = some today := by
  obtain ⟨cs, ls, la, xp, lv, tl, tm⟩ := s
  cases la <;> rfl

/-- C3: `updateStreak` transition cases: same-day re-log leaves the current
streak unchanged; logging exactly one calendar day after the last active
date increments it; any other situation resets it to 1 when logging and to
0 otherwise; and every transition stamps `lastActiveDate` with today. -/
theorem updateStreak_cases (s : StreakState) (today : ℤ) (didLog : Bool) :
    (updateStreak today didLog s).lastActiveDate = some today ∧
    (s.lastActiveDate = some today →
      (updateStreak today didLog s).currentStreak = s.currentStreak) ∧
    (s.lastActiveDate = some (today - 1) → didLog = true →
      (updateStreak today didLog s).currentStreak = s.currentStreak + 1) ∧
    (s.lastActiveDate ≠ some today →
      (s.lastActiveDate ≠ some (today - 1) ∨ didLog = false) →
      (updateStreak today didLog s).currentStreak = if didLog = true then 1 else 0) := by
  refine ⟨updateStreak_lastActiveDate today didLog s, ?_, ?_, ?_⟩
  · intro h
    rw [updateStreak_currentStreak, h]
    simp
  · intro h hd
    rw [updateStreak_currentStreak, h, hd]
    have h0 : ¬(today - (today - 1) = 0) := by omega
    have h1 : today - (today - 1) = 1 := by omega
    simp [h0, h1]
  · intro h1 h2
    rw [updateStreak_currentStreak]
    rcases hla : s.lastActiveDate with _ | d
    · cases didLog <;> simp
    · rw [hla] at h1 h2
      have hd0 : ¬(today - d = 0) := fun hc => h1 (by rw [show d = today by omega])
      rcases h2 with h2 | h2
      · have hd1 : ¬(today - d = 1 ∧ didLog = true) :=
          fun hc => h2 (by rw [show d = today - 1 by omega])
        simp [hd0, hd1]
      · subst h2
        simp [hd0]

/-- C3 instantiated: the same-day, next-day and gap transitions at concrete
streak states. -/
theorem updateStreak_cases_scenarios :
    ((⟨2, 5, some 10, 0, 1, 0, 0⟩ : StreakState).lastActiveDate = some 10 ∧
      (updateStreak 10 true ⟨2, 5, some 10, 0, 1, 0, 0⟩).currentStreak = 2) ∧
    ((⟨2, 5, some 9, 0, 1, 0, 0⟩ : StreakState).lastActiveDate = some (10 - 1) ∧
      (updateStreak 10 true ⟨2, 5, some 9, 0, 1, 0, 0⟩).currentStreak = 2 + 1) ∧
    ((⟨2, 5, some 7, 0, 1, 0, 0⟩ : StreakState).lastActiveDate ≠ some 10 ∧
      ((⟨2, 5, some 7, 0, 1, 0, 0⟩ : StreakState).lastActiveDate ≠ some (10 - 1) ∨
        true = false) ∧
      (updateStreak 10 true ⟨2, 5, some 7, 0, 1, 0, 0⟩).currentStreak = 1) :=
  ⟨⟨by decide,
    (updateStreak_cases ⟨2, 5, some 10, 0, 1, 0, 0⟩ 10 true).2.1 (by decide)⟩,
   ⟨by decide,
    (updateStreak_cases ⟨2, 5, some 9, 0, 1, 0, 0⟩ 10 true).2.2.1 (by decide) rfl⟩,
   by decide, Or.inl (by decide),
   (updateStreak_cases ⟨2, 5, some 7, 0, 1, 0, 0⟩ 10 true).2.2.2 (by decide)
     (Or.inl (by decide))⟩

/-- C8: after every `updateStreak` transition the longest streak equals the
maximum of its previous value and the new current streak, hence it never
decreases and always dominates the current streak; `addXP` touches neither
streak field. -/
theorem updateStreak_longest_invariant (s : StreakState) (today : ℤ) (didLog : Bool)
    (amount : ℕ) :
    (updateStreak today didLog s).longestStreak =
      max s.longestStreak (updateStreak today didLog s).currentStreak ∧
    s.longestStreak ≤ (updateStreak today didLog s).longestStreak ∧
    (updateStreak today didLog s).currentStreak ≤
      (updateStreak today didLog s).longestStreak ∧
    (addXP amount s).currentStreak = s.currentStreak ∧
    (addXP amount s).longestStreak = s.longestStreak := by
  have h := updateStreak_longestStreak today didLog s
  exact ⟨h, by omega, by omega, rfl, rfl⟩

/-- Floor of a real square root of a nonnegative real agrees with the
natural-number square root of its floor. -/
theorem natFloor_sqrt_eq (r : ℝ) (hr : 0 ≤ r) :
    ⌊Real.sqrt r⌋₊ = Nat.sqrt ⌊r⌋₊ := by
  apply le_antisymm
  · rw [Nat.le_sqrt, Nat.le_floor_iff hr]
    push_cast
    have h1 : (⌊Real.sqrt r⌋₊ : ℝ) ≤ Real.sqrt r := Nat.floor_le (Real.sqrt_nonneg r)
    calc (⌊Real.sqrt r⌋₊ : ℝ) * (⌊Real.sqrt r⌋₊ : ℝ)
        ≤ Real.sqrt r * Real.sqrt r :=
          mul_le_mul h1 h1 (Nat.cast_nonneg _) (Real.sqrt_nonneg r)
      _ = r := Real.mul_self_sqrt hr
  · rw [Nat.le_floor_iff (Real.sqrt_nonneg r)]
    calc (Nat.sqrt ⌊r⌋₊ : ℝ) ≤ Real.sqrt ((⌊r⌋₊ : ℕ) : ℝ) := Real.nat_sqrt_le_real_sqrt
      _ ≤ Real.sqrt r := Real.sqrt_le_sqrt (Nat.floor_le hr)

/-- C5: the level is the claimed pure function of total XP —
`floor(sqrt(totalXP / 100)) + 1` — with the expected values at 0, 100 and
400 XP; after `addXP` the stored level is recomputed from the stored total
XP; and `xpForNextLevel` returns `level² * 100`. -/
theorem level_formula (xp : ℕ) (s : StreakState) (amount : ℕ) :
    calculateLevel xp = ⌊Real.sqrt ((xp : ℝ) / 100)⌋₊ + 1 ∧
    calculateLevel 0 = 1 ∧ calculateLevel 100 = 2 ∧ calculateLevel 400 = 3 ∧
    (addXP amount s).level = calculateLevel ((addXP amount s).totalXP) ∧
    xpForNextLevel s = s.level ^ 2 * 100 := by
  refine ⟨?_, rfl, rfl, ?_, rfl, by simp [xpForNextLevel]⟩
  · have h : ((xp : ℝ) / 100) = ((xp : ℝ) / ((100 : ℕ) : ℝ)) := by norm_num
    rw [calculateLevel, h, natFloor_sqrt_eq _ (by positivity), Nat.floor_div_nat,
      Nat.floor_natCast]
  · rw [calculateLevel, show (400 / 100 : ℕ) = 2 * 2 from rfl, Nat.sqrt_eq]

theorem foldl_puffs_eq (l : List Intake) (n : ℕ) :
    l.foldl (fun sum e => sum + e.puffs) n = n + (l.map Intake.puffs).sum := by
  induction l generalizing n with
  | nil => simp
  | cons e t ih => simp only [List.foldl_cons, List.map_cons, List.sum_cons, ih]; omega

theorem sum_addToHourly (acc : Fin 24 → ℕ) (e : Intake) :
    ∑ h : Fin 24, addToHourly acc e h = (∑ h : Fin 24, acc h) + e.puffs := by
  rw [addToHourly, Finset.sum_update_of_mem (Finset.mem_univ _), ← Finset.erase_eq]
  have h := Finset.add_sum_erase Finset.univ acc (Finset.mem_univ (hourOfMs e.loggedAt))
  omega

theorem sum_foldl_addToHourly (l : List Intake) (acc : Fin 24 → ℕ) :
    ∑ h : Fin 24, l.foldl addToHourly acc h =
      (∑ h : Fin 24, acc h) + (l.map Intake.puffs).sum := by
  induction l generalizing acc with
  | nil => simp
  | cons e t ih =>
    simp only [List.foldl_cons, List.map_cons, List.sum_cons]
    rw [ih, sum_addToHourly]
    omega

theorem foldl_addToHourly_untouched (h : Fin 24) (l : List Intake) (acc : Fin 24 → ℕ)
    (hl : ∀ e ∈ l, hourOfMs e.loggedAt ≠ h) :
    l.foldl addToHourly acc h = acc h := by
  induction l generalizing acc with
  | nil => rfl
  | cons e t ih =>
    simp only [List.foldl_cons]
    rw [ih _ (fun x hx => hl x (List.mem_cons_of_mem _ hx)), addToHourly,
      Function.update_noteq (hl e (List.mem_cons_self _ _)).symm]

/-- C9: for every event sequence of a daily window, the 24 per-hour puff
buckets of `hourlyData` sum to the window's `totalPuffs`, and an hour with
no events holds the bucket value zero. -/
theorem hourlyData_sum_eq_totalPuffs (intakes : List Intake) :
    (∑ h : Fin 24, hourlyData intakes h) = totalPuffs intakes ∧
    ∀ h : Fin 24, (∀ e ∈ intakes, hourOfMs e.loggedAt ≠ h) →
      hourlyData intakes h = 0 := by
  constructor
  · rw [hourlyData, sum_foldl_addToHourly, totalPuffs, foldl_puffs_eq]
    simp
  · intro h hh
    rw [hourlyData, foldl_addToHourly_untouched h intakes _ hh]

/-- C9 instantiated: a single 2-puff event at midnight fills only its own
bucket; the buckets sum to 2 and hour 5 holds zero. -/
theorem hourlyData_sum_eq_totalPuffs_case :
    (∑ h : Fin 24, hourlyData [⟨2, 0, Context.stress⟩] h) =
      totalPuffs [⟨2, 0, Context.stress⟩] ∧
    hourlyData [⟨2, 0, Context.stress⟩] (5 : Fin 24) = 0 :=
  ⟨(hourlyData_sum_eq_totalPuffs _).1,
   (hourlyData_sum_eq_totalPuffs _).2 (5 : Fin 24) (by decide)⟩

/-- C6: with fewer than 5 events in the trailing window, `predictCraving`
returns the sentinel not-enough-data result: null probability, low
confidence and no factor breakdown, as a normal result. -/
theorem predictCraving_insufficient_data (now : ℕ) (intakes : List Intake)
    (h : intakes.length < 5) :
    predictCraving now intakes =
      { probability := none, rawProbability := none,
        confidence := Confidence.low, factors := none } := by
  rw [predictCraving, if_pos h]

/-- C6 instantiated at the empty event list. -/
theorem predictCraving_insufficient_data_case :
    ([] : List Intake).length < 5 ∧
    predictCraving 0 [] =
      { probability := none, rawProbability := none,
        confidence := Confidence.low, factors := none } :=
  ⟨by decide, predictCraving_insufficient_data 0 [] (by decide)⟩

/-- C1: with at least 5 events in the window, the probability computed by
`predictCraving` is the logistic squashing of the weighted factor sum
clamped to the interval `[0.05, 0.95]`, hence always lies in it. -/
theorem predictCraving_probability_clamped (now : ℕ) (intakes : List Intake)
    (h : 5 ≤ intakes.length) :
    ∃ p : ℝ, (predictCraving now intakes).rawProbability = some p ∧
      p = min 0.95 (max 0.05 (smoothedProbability now intakes)) ∧
      0.05 ≤ p ∧ p ≤ 0.95 := by
  have h5 : ¬(intakes.length < 5) := by omega
  refine ⟨clampedProbability now intakes, ?_, rfl, ?_, ?_⟩
  · rw [predictCraving, if_neg h5]
  · rw [clampedProbability]
    exact le_min (by norm_num) (le_max_left _ _)
  · rw [clampedProbability]
    exact min_le_left _ _

/-- C1 instantiated at a five-event morning sample. -/
theorem predictCraving_probability_clamped_case :
    5 ≤ sampleFive.length ∧
    ∃ p : ℝ, (predictCraving 0 sampleFive).rawProbability = some p ∧
      p = min 0.95 (max 0.05 (smoothedProbability 0 sampleFive)) ∧
      0.05 ≤ p ∧ p ≤ 0.95 :=
  ⟨by decide, predictCraving_probability_clamped 0 sampleFive (by decide)⟩

theorem predictCraving_confidence (now : ℕ) (intakes : List Intake) :
    (predictCraving now intakes).confidence =
      if intakes.length < 5 then Confidence.low else confidenceOf intakes := by
  rw [predictCraving]
  split_ifs <;> rfl

/-- C7 amended: the confidence is `high` exactly when the window holds
strictly more than 50 events and strictly more than 20 qualifying gaps,
`low` exactly when it holds fewer than 15 events, and `medium` otherwise. -/
theorem confidence_classification (now : ℕ) (intakes : List Intake) :
    ((predictCraving now intakes).confidence = Confidence.high ↔
      50 < intakes.length ∧ 20 < (gapsOf intakes).length) ∧
    ((predictCraving now intakes).confidence = Confidence.low ↔
      intakes.length < 15) ∧
    ((predictCraving now intakes).confidence = Confidence.medium ↔
      ¬(50 < intakes.length ∧ 20 < (gapsOf intakes).length) ∧
      ¬(intakes.length < 15)) := by
  rw [predictCraving_confidence]
  split_ifs with h5
  · exact ⟨⟨fun hc => absurd hc (by decide), fun ha => absurd ha.1 (by omega)⟩,
      ⟨fun _ => by omega, fun _ => rfl⟩,
      ⟨fun hc => absurd hc (by decide), fun ha => absurd (by omega : intakes.length < 15) ha.2⟩⟩
  · rw [confidenceOf]
    split_ifs with hc h15
    · exact ⟨⟨fun _ => hc, fun _ => rfl⟩,
        ⟨fun hl => absurd hl (by decide), fun hl => absurd hl (by omega)⟩,
        ⟨fun hm => absurd hm (by decide), fun hn => absurd hc hn.1⟩⟩
    · exact ⟨⟨fun hh => absurd hh (by decide), fun ha => absurd ha hc⟩,
        ⟨fun _ => h15, fun _ => rfl⟩,
        ⟨fun hm => absurd hm (by decide), fun hn => absurd h15 hn.2⟩⟩
    · exact ⟨⟨fun hh => absurd hh (by decide), fun ha => absurd ha hc⟩,
        ⟨fun hl => absurd hl (by decide), fun hl => absurd hl h15⟩,
        ⟨fun _ => ⟨hc, h15⟩, fun _ => rfl⟩⟩

theorem gapsOf_cons_cons_of_lt (a b : Intake) (l : List Intake)
    (hlt : ((b.loggedAt : ℚ) - (a.loggedAt : ℚ)) / (msPerHour : ℚ) < 24) :
    gapsOf (a :: b :: l) =
      (((b.loggedAt : ℚ) - (a.loggedAt : ℚ)) / (msPerHour : ℚ)) :: gapsOf (b :: l) := by
  rw [gapsOf, gapsOf]
  simp only [List.tail_cons, List.zip_cons_cons, List.filterMap_cons]
  simp [hlt]

theorem hourlyFrom_succ (start k : ℕ) :
    hourlyFrom start (k + 1) =
      ⟨1, start, Context.stress⟩ :: hourlyFrom (start + msPerHour) k := by
  rw [hourlyFrom, hourlyFrom, List.range_succ_eq_map]
  simp only [List.map_cons, List.map_map, List.cons.injEq]
  refine ⟨by simp, List.map_congr_left fun i _ => ?_⟩
  have harith : start + (i + 1) * msPerHour = start + msPerHour + i * msPerHour := by ring
  simp [Nat.succ_eq_add_one, harith]

theorem gapsOf_hourlyFrom_length (k : ℕ) : ∀ (start : ℕ),
    (gapsOf (hourlyFrom start k)).length = k - 1 := by
  induction k with
  | zero => intro start; rfl
  | succ m ih =>
    intro start
    cases m with
    | zero => rfl
    | succ m' =>
      have hgap : (((start + msPerHour : ℕ) : ℚ) - ((start : ℕ) : ℚ)) /
          ((msPerHour : ℕ) : ℚ) = 1 := by
        rw [msPerHour]
        push_cast
        ring_nf
      have hcond : (((⟨1, start + msPerHour, Context.stress⟩ : Intake).loggedAt : ℚ) -
          ((⟨1, start, Context.stress⟩ : Intake).loggedAt : ℚ)) / ((msPerHour : ℕ) : ℚ) < 24 := by
        show (((start + msPerHour : ℕ) : ℚ) - ((start : ℕ) : ℚ)) / ((msPerHour : ℕ) : ℚ) < 24
        rw [hgap]
        norm_num
      rw [hourlyFrom_succ, hourlyFrom_succ, gapsOf_cons_cons_of_lt _ _ _ hcond,
        ← hourlyFrom_succ (start + msPerHour) m', List.length_cons, ih (start + msPerHour)]
      omega

/-- C7: refutation of the claimed at-least thresholds: a window of exactly
50 events with 49 qualifying gaps — which the claim classifies as `high` —
gets confidence `medium` from the code, whose test is strict
(`> 50 && > 20`). -/
theorem confidence_threshold_refuted :
    (predictCraving 0 fiftyHourly).confidence = Confidence.medium ∧
    50 ≤ fiftyHourly.length ∧ 20 ≤ (gapsOf fiftyHourly).length := by
  have hlen : fiftyHourly.length = 50 := by
    rw [fiftyHourly, hourlyFrom]
    simp
  have hgaps : (gapsOf fiftyHourly).length = 49 := by
    rw [fiftyHourly, gapsOf_hourlyFrom_length]
  refine ⟨?_, by omega, by omega⟩
  rw [predictCraving_confidence, if_neg (by omega), confidenceOf,
    if_neg (fun hc => by omega), if_neg (by omega)]

/-- C2: refutation of the |slope| < 0.5 direction threshold: a week whose
only event is a single puff on the last day has OLS slope `3/28 < 0.5`,
which the claim classifies as `stable`, yet the code's direction field —
keyed on the slope's sign alone — reports `increasing`. -/
theorem weekly_direction_threshold_refuted :
    getWeeklyDirection 0 [⟨1, 6 * msPerDay, Context.other⟩] = "increasing" ∧
    weeklyTrend 0 [⟨1, 6 * msPerDay, Context.other⟩] = 3/28 ∧
    |weeklyTrend 0 [⟨1, 6 * msPerDay, Context.other⟩]| < 1/2 := by
  have ht : weeklyTrend 0 [⟨1, 6 * msPerDay, Context.other⟩] = 3/28 := by
    norm_num [weeklyTrend, dailyTotals, dayNumberOfMs, msPerDay, calculateTrend,
      List.range_succ, List.filter]
  refine ⟨?_, ht, by rw [ht]; norm_num [abs_of_nonneg]⟩
  rw [getWeeklyDirection, ht, trendDirection, if_pos (by norm_num : (3/28 : ℚ) > 0)]

/-- C2 amended: the weekly `trend.direction` field classifies by the sign
of the OLS slope alone — `increasing` iff the slope is positive,
`decreasing` iff negative, `stable` iff exactly zero; the |slope| < 0.5
band instead selects the human-readable stable trend message. -/
theorem weekly_direction_sign_classification (weekStartDay : ℕ)
    (intakes : List Intake) (slope : ℚ) :
    (getWeeklyDirection weekStartDay intakes = "increasing" ↔
      0 < weeklyTrend weekStartDay intakes) ∧
    (getWeeklyDirection weekStartDay intakes = "decreasing" ↔
      weeklyTrend weekStartDay intakes < 0) ∧
    (getWeeklyDirection weekStartDay intakes = "stable" ↔
      weeklyTrend weekStartDay intakes = 0) ∧
    (getTrendMessage slope = "Your usage is stable this week." ↔
      -(1/2) ≤ slope ∧ slope < 1/2) := by
  refine ⟨?_, ?_, ?_, ?_⟩
  · rw [getWeeklyDirection, trendDirection]
    split_ifs with h1 h2
    · exact ⟨fun _ => h1, fun _ => rfl⟩
    · exact ⟨fun hs => absurd hs (by decide), fun hp => absurd hp (by linarith)⟩
    · exact ⟨fun hs => absurd hs (by decide), fun hp => absurd hp h1⟩
  · rw [getWeeklyDirection, trendDirection]
    split_ifs with h1 h2
    · exact ⟨fun hs => absurd hs (by decide), fun hn => absurd hn (by linarith)⟩
    · exact ⟨fun _ => h2, fun _ => rfl⟩
    · exact ⟨fun hs => absurd hs (by decide), fun hn => absurd hn h2⟩
  · rw [getWeeklyDirection, trendDirection]
    split_ifs with h1 h2
    · exact ⟨fun hs => absurd hs (by decide), fun hz => absurd hz (by linarith)⟩
    · exact ⟨fun hs => absurd hs (by decide), fun hz => absurd hz (by linarith)⟩
    · exact ⟨fun _ => by linarith, fun _ => rfl⟩
  · rw [getTrendMessage]
    split_ifs with h1 h2 h3 h4
    · exact ⟨fun hs => absurd hs (by decide), fun hb => absurd hb.1 (by linarith)⟩
    · exact ⟨fun hs => absurd hs (by decide), fun hb => absurd hb.1 (by linarith)⟩
    · exact ⟨fun _ => ⟨by linarith, h3⟩, fun _ => rfl⟩
    · exact ⟨fun hs => absurd hs (by decide), fun hb => absurd hb.2 h3⟩
    · exact ⟨fun hs => absurd hs (by decide), fun hb => absurd hb.2 h3⟩

/-- C10: `getOrCreateStreak` always raises `ReferenceError: odId` — its
body references the unbound identifier `odId` instead of its `userId`
parameter — and no function exported by the gamification module reaches it
through the module's call graph. -/
theorem getOrCreateStreak_unreachable (userId : ℤ) :
    getOrCreateStreak userId = Except.error (JsError.referenceError "odId") ∧
    ∀ e ∈ gamificationExports, "getOrCreateStreak" ∉ reachableFrom 5 e := by
  constructor
  · rfl
  · intro e he
    fin_cases he <;> decide

theorem unlockAchievement_preserves (aid : String) (st : GState) :
    (unlockAchievement aid st).2.streak.currentStreak = st.streak.currentStreak ∧
    (unlockAchievement aid st).2.streak.totalLogsCount = st.streak.totalLogsCount ∧
    (unlockAchievement aid st).2.streak.totalMoneySaved = st.streak.totalMoneySaved := by
  rw [unlockAchievement]
  split_ifs with h
  · exact ⟨rfl, rfl, rfl⟩
  · split <;> exact ⟨rfl, rfl, rfl⟩

theorem unlockAchievement_mem_mono (aid x : String) (st : GState)
    (hx : x ∈ st.unlocked) : x ∈ (unlockAchievement aid st).2.unlocked := by
  rw [unlockAchievement]
  split_ifs with h
  · exact hx
  · split <;> exact List.mem_cons_of_mem _ hx

theorem unlockAchievement_self_mem (aid : String) (st : GState) :
    aid ∈ (unlockAchievement aid st).2.unlocked := by
  rw [unlockAchievement]
  split_ifs with h
  · exact h
  · split <;> exact List.mem_cons_self _ _

theorem unlockAchievement_already (aid : String) (st : GState)
    (h : aid ∈ st.unlocked) : unlockAchievement aid st = (false, st) := by
  rw [unlockAchievement, if_pos h]

theorem unlockAchievement_new (aid : String) (st : GState) (h : aid ∉ st.unlocked) :
    (unlockAchievement aid st).2.streak.totalXP = st.streak.totalXP + xpOf aid ∧
    aid ∈ (unlockAchievement aid st).2.unlocked := by
  rw [unlockAchievement, if_neg h]
  rcases hfind : ACHIEVEMENTS.find? (fun a => a.id = aid) with _ | a
  · simp [hfind, xpOf]
  · simp [hfind, xpOf, addXP]

theorem checks_stable : ∀ c ∈ CHECKS, PredStable c.pred := by
  intro c hc
  fin_cases hc <;> · intro s1 s2 h1 h2 h3; simp [h1, h2, h3]

theorem runChecks_preserves (cs : List Check) :
    ∀ (acc : List Achievement) (st : GState),
      (runChecks cs acc st).2.streak.currentStreak = st.streak.currentStreak ∧
      (runChecks cs acc st).2.streak.totalLogsCount = st.streak.totalLogsCount ∧
      (runChecks cs acc st).2.streak.totalMoneySaved = st.streak.totalMoneySaved := by
  induction cs with
  | nil => exact fun acc st => ⟨rfl, rfl, rfl⟩
  | cons c rest ih =>
    intro acc st
    by_cases hp : c.pred st.streak = true
    · rw [runChecks, if_pos hp]
      have h1 := unlockAchievement_preserves c.ach.id st
      have h2 := ih (if (unlockAchievement c.ach.id st).1 then acc ++ [c.ach] else acc)
        (unlockAchievement c.ach.id st).2
      exact ⟨h2.1.trans h1.1, h2.2.1.trans h1.2.1, h2.2.2.trans h1.2.2⟩
    · rw [runChecks, if_neg hp]
      exact ih acc st

theorem runChecks_mem_mono (cs : List Check) (x : String) :
    ∀ (acc : List Achievement) (st : GState), x ∈ st.unlocked →
      x ∈ (runChecks cs acc st).2.unlocked := by
  induction cs with
  | nil => exact fun acc st hx => hx
  | cons c rest ih =>
    intro acc st hx
    by_cases hp : c.pred st.streak = true
    · rw [runChecks, if_pos hp]
      exact ih _ _ (unlockAchievement_mem_mono _ _ _ hx)
    · rw [runChecks, if_neg hp]
      exact ih _ _ hx

theorem runChecks_complete (cs : List Check) (hst : ∀ c ∈ cs, PredStable c.pred) :
    ∀ (acc : List Achievement) (st : GState) (c : Check), c ∈ cs →
      c.pred st.streak = true → c.ach.id ∈ (runChecks cs acc st).2.unlocked := by
  induction cs with
  | nil => intro acc st c hc; exact absurd hc (List.not_mem_nil c)
  | cons c0 rest ih =>
    intro acc st c hc hp
    rcases List.mem_cons.mp hc with rfl | hmem
    · rw [runChecks, if_pos hp]
      exact runChecks_mem_mono rest _ _ _ (unlockAchievement_self_mem _ _)
    · by_cases hp0 : c0.pred st.streak = true
      · rw [runChecks, if_pos hp0]
        have hpres := unlockAchievement_preserves c0.ach.id st
        have hp' : c.pred (unlockAchievement c0.ach.id st).2.streak = true :=
          (hst c (List.mem_cons_of_mem _ hmem) _ _ hpres.1 hpres.2.1 hpres.2.2).trans hp
        exact ih (fun d hd => hst d (List.mem_cons_of_mem _ hd)) _ _ c hmem hp'
      · rw [runChecks, if_neg hp0]
        exact ih (fun d hd => hst d (List.mem_cons_of_mem _ hd)) _ _ c hmem hp

theorem runChecks_stable (cs : List Check) :
    ∀ (acc : List Achievement) (st : GState),
      (∀ c ∈ cs, c.pred st.streak = true → c.ach.id ∈ st.unlocked) →
      runChecks cs acc st = (acc, st) := by
  induction cs with
  | nil => exact fun acc st _ => rfl
  | cons c0 rest ih =>
    intro acc st hdone
    by_cases hp : c0.pred st.streak = true
    · rw [runChecks, if_pos hp,
        unlockAchievement_already _ _ (hdone c0 (List.mem_cons_self _ _) hp)]
      show runChecks rest acc st = (acc, st)
      exact ih acc st (fun c hc hpc => hdone c (List.mem_cons_of_mem _ hc) hpc)
    · rw [runChecks, if_neg hp]
      exact ih acc st (fun c hc hpc => hdone c (List.mem_cons_of_mem _ hc) hpc)

/-- C4: achievement unlocking is idempotent: re-running `checkAchievements`
on the state it produced unlocks nothing and leaves the state unchanged; a
duplicate unlock attempt for an already-unlocked achievement is a no-op
returning `false`; and a first-time unlock awards the achievement's catalog
XP exactly once while recording the unlock. -/
theorem achievement_unlock_idempotent (st : GState) (aid : String) :
    checkAchievements (checkAchievements st).2 = ([], (checkAchievements st).2) ∧
    (aid ∈ st.unlocked → unlockAchievement aid st = (false, st)) ∧
    (aid ∉ st.unlocked →
      (unlockAchievement aid st).2.streak.totalXP = st.streak.totalXP + xpOf aid ∧
      aid ∈ (unlockAchievement aid st).2.unlocked) := by
  refine ⟨?_, unlockAchievement_already aid st, unlockAchievement_new aid st⟩
  rw [checkAchievements, checkAchievements]
  apply runChecks_stable
  intro c hc hp
  have hpres := runChecks_preserves CHECKS [] st
  have hp0 : c.pred st.streak = true :=
    (checks_stable c hc _ _ hpres.1 hpres.2.1 hpres.2.2).symm.trans hp
  exact runChecks_complete CHECKS checks_stable [] st c hc hp0

/-- C4 instantiated: a duplicate `first_day` unlock is a no-op, and a fresh
`first_day` unlock awards its 50 XP once. -/
theorem achievement_unlock_idempotent_case :
    ("first_day" ∈ (⟨["first_day"], defaultStreak⟩ : GState).unlocked ∧
      unlockAchievement "first_day" ⟨["first_day"], defaultStreak⟩ =
        (false, ⟨["first_day"], defaultStreak⟩)) ∧
    ("first_day" ∉ (⟨[], defaultStreak⟩ : GState).unlocked ∧
      (unlockAchievement "first_day" ⟨[], defaultStreak⟩).2.streak.totalXP =
        (⟨[], defaultStreak⟩ : GState).streak.totalXP + xpOf "first_day" ∧
      "first_day" ∈ (unlockAchievement "first_day" ⟨[], defaultStreak⟩).2.unlocked) :=
  ⟨⟨by decide,
    (achievement_unlock_idempotent ⟨["first_day"], defaultStreak⟩ "first_day").2.1
      (by decide)⟩,
   ⟨by decide,
    (achievement_unlock_idempotent ⟨[], defaultStreak⟩ "first_day").2.2 (by decide)⟩⟩

/-- C10 instantiated: the error at a concrete user id, and unreachability
from the `updateStreakOnLog` export. -/
theorem getOrCreateStreak_unreachable_case :
    getOrCreateStreak 7 = Except.error (JsError.referenceError "odId") ∧
    "updateStreakOnLog" ∈ gamificationExports ∧
    "getOrCreateStreak" ∉ reachableFrom 5 "updateStreakOnLog" :=
  ⟨(getOrCreateStreak_unreachable 7).1, by decide,
   (getOrCreateStreak_unreachable 7).2 "updateStreakOnLog" (by decide)⟩

end SmokeLess
